import Mathlib

/-!
Verification of the Project-Analyzer static-analysis engine
(`backend/app.py`) against its natural-language specification.

The Python source is shallowly embedded: the CPython AST becomes the
inductive type `PyNode` (the subset of node kinds the analyser inspects;
fields that the analyser never reads, such as decorator lists and
`arguments` nodes, are elided), the analyser's tree walks become Lean
functions, and the surrounding I/O collaborators (file reading, `ast.parse`,
radon's raw-LOC counter, `os.walk`) are represented by their outcomes,
exactly as §1 of the spec designates them external collaborators.
Floating-point Halstead values are carried as rationals.
-/

namespace ProjectAnalyzer

/-! ## String and path helpers (posix semantics used by the source) -/

/-- Characters of a string; `String` stores its characters as a list. -/
def strChars (s : String) : List Char := s.toList

/-- Python `str.replace(pat, rep)`: non-overlapping, left-to-right.
The fuel argument starts at the string length and strictly decreases;
it is sufficient whenever the pattern is nonempty (all call sites use
`"/"` or `".py"`). -/
def pyReplaceAux : Nat → List Char → List Char → List Char → List Char
  | 0, s, _, _ => s
  | _ + 1, [], _, _ => []
  | fuel + 1, c :: rest, pat, rep =>
    if pat.isPrefixOf (c :: rest) then
      rep ++ pyReplaceAux fuel (List.drop pat.length (c :: rest)) pat rep
    else
      c :: pyReplaceAux fuel rest pat rep

/-- Python `s.replace(pat, rep)` (replaces every occurrence). -/
def pyReplace (s pat rep : String) : String :=
  String.mk (pyReplaceAux s.toList.length s.toList pat.toList rep.toList)

/-- Python `s.startswith(pat)`. -/
def pyStartsWith (s pat : String) : Bool :=
  pat.toList.isPrefixOf s.toList

/-- Python `s.endswith(pat)`. -/
def pyEndsWith (s pat : String) : Bool :=
  pat.toList.isSuffixOf s.toList

/-- Python `s[:-k]` for `k ≤ len(s)`: drop the last `k` characters. -/
def pyDropRight (s : String) (k : Nat) : String :=
  String.mk (s.toList.take (s.toList.length - k))

/-- Python `os.path.dirname` for relative posix paths: everything before the last
`/`, with trailing separators stripped (`dirname "a/b/c.py" = "a/b"`,
`dirname "a.py" = ""`). -/
def dirname (p : String) : String :=
  let r := p.toList.reverse.dropWhile (fun c => c ≠ '/')
  String.mk (((r.drop 1).dropWhile (fun c => c = '/')).reverse)

/-- Python `os.path.join a b` for the shapes the analyser uses (`b` relative). -/
def joinPath (a b : String) : String :=
  if a = "" then b
  else if a.toList.getLast? = some '/' then a ++ b
  else a ++ "/" ++ b

/-- Count of leading dots of an import string (`level` in the source). -/
def leadingDots (s : String) : Nat :=
  (s.toList.takeWhile (fun c => c = '.')).length

/-- Python `s.lstrip('.')`, i.e. `imported_module[level:]` in the source. -/
def dropDots (s : String) : String :=
  String.mk (s.toList.dropWhile (fun c => c = '.'))

/-! ## Python constants

CPython's `bool` is a subclass of `int`, so `isinstance(True, int)` holds;
`pyIsInstInt` reproduces that. `pyConstStr` is Python `str()` on the
constant values the model carries. -/

inductive PyConst where
  | intC (n : Nat)
  | boolC (b : Bool)
  | strC (s : String)
  | noneC
  deriving DecidableEq, Repr

/-- Python `isinstance(value, int)` for embedded constants (true for `bool`). -/
def pyIsInstInt : PyConst → Bool
  | .intC _ => true
  | .boolC _ => true
  | _ => false

/-- Python `str(value)` for embedded constants. -/
def pyConstStr : PyConst → String
  | .intC n => toString n
  | .boolC true => "True"
  | .boolC false => "False"
  | .strC s => s
  | .noneC => "None"

/-! ## The embedded CPython AST

One untyped node type, like `ast.AST`. Line numbers are kept exactly where
the analyser reads them (function definitions and constants). -/

inductive PyNode where
  | module (body : List PyNode)
  | functionDef (name : String) (args : List String) (body : List PyNode) (lineno : Nat)
  | asyncFunctionDef (name : String) (args : List String) (body : List PyNode) (lineno : Nat)
  | classDef (name : String) (body : List PyNode) (lineno : Nat)
  | returnS (value : List PyNode)
  | ifS (test : PyNode) (body : List PyNode) (orelse : List PyNode)
  | whileS (test : PyNode) (body : List PyNode) (orelse : List PyNode)
  | forS (target : PyNode) (iter : PyNode) (body : List PyNode) (orelse : List PyNode)
  | tryS (body : List PyNode) (handlers : List PyNode) (orelse : List PyNode)
      (finalbody : List PyNode)
  | exceptHandler (body : List PyNode)
  | withS (body : List PyNode)
  | importS (names : List String)
  | importFrom (module : Option String) (level : Nat)
  | exprStmt (value : PyNode)
  | passS
  | boolOp (values : List PyNode)
  | compare (left : PyNode) (comparators : List PyNode)
  | ifExp (test : PyNode) (body : PyNode) (orelse : PyNode)
  | constE (value : PyConst) (lineno : Nat)
  | nameE (id : String)

open PyNode

/-- CPython `ast.iter_child_nodes`, in field order. -/
def children : PyNode → List PyNode
  | .module b => b
  | .functionDef _ _ b _ => b
  | .asyncFunctionDef _ _ b _ => b
  | .classDef _ b _ => b
  | .returnS v => v
  | .ifS t b o => t :: (b ++ o)
  | .whileS t b o => t :: (b ++ o)
  | .forS tg it b o => tg :: it :: (b ++ o)
  | .tryS b h o f => b ++ h ++ o ++ f
  | .exceptHandler b => b
  | .withS b => b
  | .importS _ => []
  | .importFrom _ _ => []
  | .exprStmt v => [v]
  | .passS => []
  | .boolOp vs => vs
  | .compare l cs => l :: cs
  | .ifExp t b o => [t, b, o]
  | .constE _ _ => []
  | .nameE _ => []

-- Number of nodes in a subtree (used as exact fuel for the BFS walk).
mutual
def sizeNode : PyNode → Nat
  | .module b => 1 + sizeList b
  | .functionDef _ _ b _ => 1 + sizeList b
  | .asyncFunctionDef _ _ b _ => 1 + sizeList b
  | .classDef _ b _ => 1 + sizeList b
  | .returnS v => 1 + sizeList v
  | .ifS t b o => 1 + sizeNode t + sizeList b + sizeList o
  | .whileS t b o => 1 + sizeNode t + sizeList b + sizeList o
  | .forS tg it b o => 1 + sizeNode tg + sizeNode it + sizeList b + sizeList o
  | .tryS b h o f => 1 + sizeList b + sizeList h + sizeList o + sizeList f
  | .exceptHandler b => 1 + sizeList b
  | .withS b => 1 + sizeList b
  | .importS _ => 1
  | .importFrom _ _ => 1
  | .exprStmt v => 1 + sizeNode v
  | .passS => 1
  | .boolOp vs => 1 + sizeList vs
  | .compare l cs => 1 + sizeNode l + sizeList cs
  | .ifExp t b o => 1 + sizeNode t + sizeNode b + sizeNode o
  | .constE _ _ => 1
  | .nameE _ => 1
def sizeList : List PyNode → Nat
  | [] => 0
  | n :: ns => sizeNode n + sizeList ns
end

/-- CPython `ast.walk`: breadth-first order (deque: pop left, extend children).
The fuel equals the total node count, which is exactly the number of
emissions the walk performs. -/
def walkAux : Nat → List PyNode → List PyNode
  | 0, _ => []
  | _ + 1, [] => []
  | fuel + 1, n :: rest => n :: walkAux fuel (rest ++ children n)

/-- The full `ast.walk(t)` emission as a list, in BFS order. -/
def walk (t : PyNode) : List PyNode := walkAux (sizeNode t) [t]

/-! ## Import extractor (`ImportVisitor`, app.py:42-65)

`visit_ImportFrom` tests `if node.module:` before `elif node.level > 0:`,
so the dotted branch runs only when no module suffix is present; the inner
`if node.module:` of that branch is then vacuous, exactly as in the source. -/

/-- What `visit_ImportFrom` appends for one `from … import …` node. -/
def importFromRefs (module : Option String) (level : Nat) : List String :=
  match module with
  | some m => [m]
  | none =>
    if level > 0 then [String.mk (List.replicate level '.')] else []

-- `ImportVisitor.visit`: depth-first preorder, appending at each
-- `Import`/`ImportFrom` node and recursing into children via
-- `generic_visit`.
mutual
def visitImports : PyNode → List String
  | .module b => visitImportsL b
  | .functionDef _ _ b _ => visitImportsL b
  | .asyncFunctionDef _ _ b _ => visitImportsL b
  | .classDef _ b _ => visitImportsL b
  | .returnS v => visitImportsL v
  | .ifS t b o => visitImports t ++ (visitImportsL b ++ visitImportsL o)
  | .whileS t b o => visitImports t ++ (visitImportsL b ++ visitImportsL o)
  | .forS tg it b o =>
    visitImports tg ++ (visitImports it ++ (visitImportsL b ++ visitImportsL o))
  | .tryS b h o f =>
    visitImportsL b ++ (visitImportsL h ++ (visitImportsL o ++ visitImportsL f))
  | .exceptHandler b => visitImportsL b
  | .withS b => visitImportsL b
  | .importS names => names
  | .importFrom m lvl => importFromRefs m lvl
  | .exprStmt v => visitImports v
  | .passS => []
  | .boolOp vs => visitImportsL vs
  | .compare l cs => visitImports l ++ visitImportsL cs
  | .ifExp t b o => visitImports t ++ (visitImports b ++ visitImports o)
  | .constE _ _ => []
  | .nameE _ => []
def visitImportsL : List PyNode → List String
  | [] => []
  | n :: ns => visitImports n ++ visitImportsL ns
end

/-! ## Cognitive complexity (`calculate_cognitive_complexity_from_ast`,
app.py:125-158)

Own increment: `+ (1 + nesting)` for `If`/`While`/`For`, `Try` and
`ExceptHandler`, and `With`; `+ (len(values) - 1)` for `BoolOp`.
Children nesting: `+ 1` only below `If`, `While`, `For`, `Try`, `With`
(app.py:153) — notably *not* below `ExceptHandler`, and `IfExp` is not
`ast.If` so the conditional expression contributes nothing. -/

mutual
def cogVisit : PyNode → Nat → Nat
  | .module b, n => cogList b n
  | .functionDef _ _ b _, n => cogList b n
  | .asyncFunctionDef _ _ b _, n => cogList b n
  | .classDef _ b _, n => cogList b n
  | .returnS v, n => cogList v n
  | .ifS t b o, n =>
    (1 + n) + (cogVisit t (n + 1) + (cogList b (n + 1) + cogList o (n + 1)))
  | .whileS t b o, n =>
    (1 + n) + (cogVisit t (n + 1) + (cogList b (n + 1) + cogList o (n + 1)))
  | .forS tg it b o, n =>
    (1 + n) + (cogVisit tg (n + 1) +
      (cogVisit it (n + 1) + (cogList b (n + 1) + cogList o (n + 1))))
  | .tryS b h o f, n =>
    (1 + n) + (cogList b (n + 1) +
      (cogList h (n + 1) + (cogList o (n + 1) + cogList f (n + 1))))
  | .exceptHandler b, n => (1 + n) + cogList b n
  | .withS b, n => (1 + n) + cogList b (n + 1)
  | .importS _, _ => 0
  | .importFrom _ _, _ => 0
  | .exprStmt v, n => cogVisit v n
  | .passS, _ => 0
  | .boolOp vs, n => (vs.length - 1) + cogList vs n
  | .compare l cs, n => cogVisit l n + cogList cs n
  | .ifExp t b o, n => cogVisit t n + (cogVisit b n + cogVisit o n)
  | .constE _ _, _ => 0
  | .nameE _, _ => 0
def cogList : List PyNode → Nat → Nat
  | [], _ => 0
  | x :: xs, n => cogVisit x n + cogList xs n
end

/-- Entry point `calculate_cognitive_complexity_from_ast(node)`: the walk
started at nesting 0. -/
def calculate_cognitive_complexity_from_ast (n : PyNode) : Nat :=
  cogVisit n 0

/-! ## Smell detector (app.py:344-369) -/

inductive SmellType where
  | longParameterList
  | magicNumber
  | syntaxErrorSmell
  deriving DecidableEq, Repr

structure Smell where
  type : SmellType
  message : String
  line_number : Nat
  deriving DecidableEq, Repr

/-- Smells one walked node contributes: a `Long Parameter List` for a
`FunctionDef` with more than 5 parameters (async definitions are not
checked, as in the source), and one `Magic Number` per right-hand
comparator of a `Compare` that is an `int` constant. -/
def nodeSmells : PyNode → List Smell
  | .functionDef nm args _ ln =>
    if args.length > 5 then
      [⟨.longParameterList,
        "Function \"" ++ nm ++ "\" has " ++ toString args.length ++
          " parameters (more than 5)", ln⟩]
    else []
  | .compare _ cs =>
    cs.filterMap fun c =>
      match c with
      | .constE v ln =>
        if pyIsInstInt v then
          some ⟨.magicNumber,
            "Magic number " ++ pyConstStr v ++ " found in comparison", ln⟩
        else none
      | _ => none
  | _ => []

/-- The smell pass: one loop over `ast.walk(tree)` appending findings. -/
def detectSmells (t : PyNode) : List Smell :=
  (walk t).flatMap nodeSmells

/-! ## Cyclomatic complexity

Modelled from the spec: the source delegates cyclomatic complexity to the
third-party `radon.visitors.ComplexityVisitor` (app.py:312), whose code is
not part of this repository. Spec §4.4 defines it: start at 1; add 1 for
each `if`/`elif` branch (an `elif` is a nested `If` in `orelse`), `for`
loop, `while` loop, `except` handler, `with` context, boolean operator
occurrence, and conditional expression; nested definitions are not summed
into the enclosing function. -/

-- Modelled from the spec: decision-point count of spec §4.4, skipping the
-- interiors of nested function/class definitions.
mutual
def mccabeCnt : PyNode → Nat
  | .module b => mccabeCntL b
  | .functionDef _ _ _ _ => 0
  | .asyncFunctionDef _ _ _ _ => 0
  | .classDef _ _ _ => 0
  | .returnS v => mccabeCntL v
  | .ifS t b o => 1 + (mccabeCnt t + (mccabeCntL b + mccabeCntL o))
  | .whileS t b o => 1 + (mccabeCnt t + (mccabeCntL b + mccabeCntL o))
  | .forS tg it b o =>
    1 + (mccabeCnt tg + (mccabeCnt it + (mccabeCntL b + mccabeCntL o)))
  | .tryS b h o f =>
    mccabeCntL b + (mccabeCntL h + (mccabeCntL o + mccabeCntL f))
  | .exceptHandler b => 1 + mccabeCntL b
  | .withS b => 1 + mccabeCntL b
  | .importS _ => 0
  | .importFrom _ _ => 0
  | .exprStmt v => mccabeCnt v
  | .passS => 0
  | .boolOp vs => (vs.length - 1) + mccabeCntL vs
  | .compare l cs => mccabeCnt l + mccabeCntL cs
  | .ifExp t b o => 1 + (mccabeCnt t + (mccabeCnt b + mccabeCnt o))
  | .constE _ _ => 0
  | .nameE _ => 0
def mccabeCntL : List PyNode → Nat
  | [] => 0
  | x :: xs => mccabeCnt x + mccabeCntL xs
end

/-- Modelled from the spec: McCabe complexity of one definition (§4.4),
`1` plus the decision points of its body. -/
def mccabe : PyNode → Nat
  | .functionDef _ _ b _ => 1 + mccabeCntL b
  | .asyncFunctionDef _ _ b _ => 1 + mccabeCntL b
  | _ => 1

/-- One entry of `ComplexityVisitor.blocks`: the attributes the source
reads (`name`, `complexity`, `lineno`). -/
structure RadonBlock where
  name : String
  complexity : Nat
  lineno : Nat
  deriving DecidableEq, Repr

/-- Name and line of a function definition node, if it is one. -/
def defInfo : PyNode → Option (String × Nat)
  | .functionDef nm _ _ ln => some (nm, ln)
  | .asyncFunctionDef nm _ _ ln => some (nm, ln)
  | _ => none

/-- Modelled from the spec: radon's block list (not repository code) —
one block per function, async function, or method definition (§4.4), with
its McCabe complexity and line number. -/
def radonBlocks (t : PyNode) : List RadonBlock :=
  (walk t).filterMap fun n =>
    (defInfo n).map fun p => ⟨p.1, mccabe n, p.2⟩

/-! ## Python dictionaries

Insertion-ordered association lists with the semantics of `dict`:
inserting an existing key overwrites its value in place, a new key is
appended. -/

/-- Assignment `d[k] = v` on a Python dict. -/
def dictInsert {α : Type} : List (String × α) → String → α → List (String × α)
  | [], k, v => [(k, v)]
  | (k', v') :: rest, k, v =>
    if k' = k then (k', v) :: rest else (k', v') :: dictInsert rest k v

/-- Access `d.get(k)` on a Python dict (keys are unique, first match wins). -/
def lookupDict {α : Type} : List (String × α) → String → Option α
  | [], _ => none
  | (k', v') :: rest, k => if k' = k then some v' else lookupDict rest k

/-- Keys of a dict, in insertion order. -/
def dictKeys {α : Type} (d : List (String × α)) : List String :=
  d.map Prod.fst

/-- Values of a dict, in insertion order. -/
def dictValues {α : Type} (d : List (String × α)) : List α :=
  d.map Prod.snd

/-! ## Per-file analysis (`analyze_python_file`, app.py:245-388)

The I/O collaborators are represented by their outcomes: `read` is the
result of `open().read()`, `loc` the value radon's raw counter (or its
fallback) produced, `tree` the result of `ast.parse`, and `halsteadVals`
the floating-point triple `calculate_halstead_from_ast` would return on a
parseable file (it returns the empty dict exactly when the parse fails,
which the model captures in the output's `Option`). -/

structure SynErr where
  msg : String
  lineno : Nat
  deriving DecidableEq, Repr

structure HalsteadVals where
  volume : ℚ
  difficulty : ℚ
  effort : ℚ
  deriving DecidableEq, Repr

structure SourceText where
  loc : Nat
  tree : Except SynErr PyNode
  halsteadVals : HalsteadVals

structure PyFile where
  path : String
  read : Except String SourceText

structure FunctionRec where
  name : String
  cyclomatic_complexity : Nat
  cognitive_complexity : Nat
  line_number : Nat
  deriving DecidableEq, Repr

structure FileAnalysisT where
  file_path : String
  lines_of_code : Nat
  functions : List FunctionRec
  code_smells : List Smell
  halstead : Option HalsteadVals
  imports : List String
  error : Option String
  deriving DecidableEq, Repr

/-- One step of the `function_nodes` construction: record a function
definition under its bare name, overwriting any previous holder. -/
def fnStep (m : List (String × PyNode)) (n : PyNode) : List (String × PyNode) :=
  match defInfo n with
  | some p => dictInsert m p.1 n
  | none => m

/-- app.py:314-318 — `function_nodes`: a dict from bare function name to
AST node, filled in `ast.walk` order (later same-named definitions
overwrite earlier ones). -/
def functionNodes (t : PyNode) : List (String × PyNode) :=
  (walk t).foldl fnStep []

/-- app.py:320-337 — one `FunctionRec` per radon block; cognitive
complexity is looked up by the block's bare name in `function_nodes`
(0 when absent). -/
def analyzeFunctions (t : PyNode) : List FunctionRec :=
  (radonBlocks t).map fun b =>
    { name := b.name
      cyclomatic_complexity := b.complexity
      cognitive_complexity :=
        match lookupDict (functionNodes t) b.name with
        | some nd => calculate_cognitive_complexity_from_ast nd
        | none => 0
      line_number := b.lineno }

/-- The function `analyze_python_file` (app.py:245-388). A read failure returns the
zero report with `error` set; a syntax error yields empty imports and
functions, the single `Syntax Error` smell, an empty Halstead dict, and
the LOC already computed; otherwise all analysers run. -/
def analyze_python_file (pf : PyFile) : FileAnalysisT :=
  match pf.read with
  | .error e =>
    { file_path := pf.path
      lines_of_code := 0
      functions := []
      code_smells := []
      halstead := none
      imports := []
      error := some ("Failed to read file: " ++ e) }
  | .ok src =>
    { file_path := pf.path
      lines_of_code := src.loc
      functions :=
        match src.tree with
        | .ok t => analyzeFunctions t
        | .error _ => []
      code_smells :=
        match src.tree with
        | .ok t => detectSmells t
        | .error e =>
          [⟨.syntaxErrorSmell, "Invalid Python syntax: " ++ e.msg, e.lineno⟩]
      halstead :=
        match src.tree with
        | .ok _ => some src.halsteadVals
        | .error _ => none
      imports :=
        match src.tree with
        | .ok t => visitImports t
        | .error _ => []
      error := none }

/-! ## Project analysis (`analyze_project`, app.py:391-580)

`os.walk` with the directory pruning of app.py:442 is an external
enumeration; the model receives its outcome as the list of discovered
`.py` files in walk order, each with its project-relative path. -/

structure FSFile where
  relative_path : String
  pyfile : PyFile

structure FS where
  pathExists : Bool
  isDir : Bool
  pyFiles : List FSFile

/-- app.py:453-455 — derived module name: path separators to dots, every
occurrence of `.py` removed (Python `str.replace` replaces all), then a
trailing `.__init__` elided. -/
def moduleName (rel : String) : String :=
  let m := pyReplace (pyReplace rel "/" ".") ".py" ""
  if pyEndsWith m ".__init__" then pyDropRight m 9 else m

/-- A per-file report inside the project report (the file analysis with
the `relative_path` key added, app.py:459). -/
structure FileEntry where
  analysis : FileAnalysisT
  relative_path : String
  deriving DecidableEq

structure GraphNode where
  id : String
  label : String
  deriving DecidableEq, Repr

structure GraphEdge where
  source : String
  target : String
  deriving DecidableEq, Repr

structure DepGraph where
  nodes : List GraphNode
  edges : List GraphEdge
  deriving DecidableEq

structure ProjectReport where
  files_analyzed : Nat
  total_lines_of_code : Nat
  total_functions : Nat
  total_code_smells : Nat
  total_cyclomatic_complexity : Nat
  total_cognitive_complexity : Nat
  average_cyclomatic_complexity : ℚ
  average_cognitive_complexity : ℚ
  total_halstead_volume : ℚ
  total_halstead_difficulty : ℚ
  total_halstead_effort : ℚ
  average_halstead_volume : ℚ
  average_halstead_difficulty : ℚ
  average_halstead_effort : ℚ
  files : List FileEntry
  graph : DepGraph
  deriving DecidableEq

/-- First pass, per-file analyses in walk order (app.py:458-461). -/
def fileEntries (fs : FS) : List FileEntry :=
  fs.pyFiles.map fun f => ⟨analyze_python_file f.pyfile, f.relative_path⟩

/-- First pass, `relative_to_module` (app.py:450-456). -/
def relativeToModule (fs : FS) : List (String × String) :=
  fs.pyFiles.foldl
    (fun d f => dictInsert d f.relative_path (moduleName f.relative_path)) []

/-- Second pass, `module_to_relative = {v: k for k, v in
relative_to_module.items()}` (app.py:488). -/
def moduleToRelative (fs : FS) : List (String × String) :=
  (relativeToModule fs).foldl (fun d p => dictInsert d p.2 p.1) []

/-- app.py:514-518 — walk `level - 1` directories up from the source
directory, stopping (at `""`) when the tree is exhausted. -/
def upDirs : Nat → String → String
  | 0, d => d
  | k + 1, d =>
    let d' := dirname d
    if d' = "" then "" else upDirs k d'

/-- app.py:540-545 — the permissive fallback for absolute imports: the
first known module of which the import is a prefix, or which is a prefix
of the import. -/
def findApproxMatch (modToRel : List (String × String)) (imported : String) :
    Option String :=
  (modToRel.find? fun p =>
    pyStartsWith imported p.1 || pyStartsWith p.1 imported).map Prod.snd

/-- app.py:497-545 — resolve one extracted import reference of the file in
directory `sourceDir` to a project-relative target path, if any. -/
def resolveTarget (relToMod modToRel : List (String × String))
    (sourceDir : String) (imported : String) : Option String :=
  if pyStartsWith imported "." then
    if imported = "." then
      let initFile := joinPath sourceDir "__init__.py"
      if (lookupDict relToMod initFile).isSome then some initFile else none
    else
      let level := leadingDots imported
      let modulePart := dropDots imported
      let currentDir := upDirs (level - 1) sourceDir
      let targetModule :=
        if modulePart ≠ "" then
          if currentDir ≠ "" then
            pyReplace currentDir "/" "." ++ "." ++ modulePart
          else modulePart
        else pyReplace currentDir "/" "."
      match lookupDict modToRel targetModule with
      | some rel => some rel
      | none => lookupDict modToRel (targetModule ++ ".__init__")
  else
    match lookupDict modToRel imported with
    | some rel => some rel
    | none => findApproxMatch modToRel imported

/-- app.py:547-556 — append the edge for one import if a distinct target
resolves and the edge is not already present. -/
def addImportEdge (relToMod modToRel : List (String × String))
    (sourceFile : String) (edges : List GraphEdge) (imported : String) :
    List GraphEdge :=
  match resolveTarget relToMod modToRel (dirname sourceFile) imported with
  | some target =>
    if target ≠ sourceFile then
      let e : GraphEdge := ⟨sourceFile, target⟩
      if e ∈ edges then edges else edges ++ [e]
    else edges
  | none => edges

/-- Second pass (app.py:490-556): edges from every non-errored file's
imports, in file order. -/
def buildEdges (relToMod modToRel : List (String × String))
    (entries : List FileEntry) : List GraphEdge :=
  entries.foldl
    (fun edges ent =>
      if ent.analysis.error.isSome then edges
      else
        ent.analysis.imports.foldl
          (addImportEdge relToMod modToRel ent.relative_path) edges)
    []

/-- Accumulator of the first-pass totals (app.py:470-485). -/
structure Totals where
  loc : Nat
  funcs : Nat
  smells : Nat
  cyc : Nat
  cog : Nat
  vol : ℚ
  diff : ℚ
  eff : ℚ
  deriving DecidableEq

/-- One step of the totals accumulation: files whose report carries
`error` are skipped entirely; an empty Halstead dict contributes nothing. -/
def accTotals (acc : Totals) (ent : FileEntry) : Totals :=
  if ent.analysis.error.isSome then acc
  else
    let a := ent.analysis
    let base : Totals :=
      { acc with
        loc := acc.loc + a.lines_of_code
        funcs := acc.funcs + a.functions.length
        smells := acc.smells + a.code_smells.length
        cyc := acc.cyc + (a.functions.map FunctionRec.cyclomatic_complexity).sum
        cog := acc.cog + (a.functions.map FunctionRec.cognitive_complexity).sum }
    match a.halstead with
    | some h =>
      { base with
        vol := base.vol + h.volume
        diff := base.diff + h.difficulty
        eff := base.eff + h.effort }
    | none => base

/-- Python `round(x, 2)` on the model's rationals (round-half-up; the
half-way tie-breaking mode is immaterial to every statement below). -/
def round2 (q : ℚ) : ℚ := (⌊q * 100 + 1 / 2⌋ : ℚ) / 100

/-- The full report for an existing project directory
(app.py:408-580, Flask-only fields omitted). -/
def buildReport (fs : FS) : ProjectReport :=
  let entries := fileEntries fs
  let relToMod := relativeToModule fs
  let modToRel := moduleToRelative fs
  let tot := entries.foldl accTotals ⟨0, 0, 0, 0, 0, 0, 0, 0⟩
  { files_analyzed := entries.length
    total_lines_of_code := tot.loc
    total_functions := tot.funcs
    total_code_smells := tot.smells
    total_cyclomatic_complexity := tot.cyc
    total_cognitive_complexity := tot.cog
    average_cyclomatic_complexity :=
      if tot.funcs > 0 then round2 ((tot.cyc : ℚ) / (tot.funcs : ℚ)) else 0
    average_cognitive_complexity :=
      if tot.funcs > 0 then round2 ((tot.cog : ℚ) / (tot.funcs : ℚ)) else 0
    total_halstead_volume := tot.vol
    total_halstead_difficulty := tot.diff
    total_halstead_effort := tot.eff
    average_halstead_volume :=
      if entries.length > 0 then round2 (tot.vol / (entries.length : ℚ)) else 0
    average_halstead_difficulty :=
      if entries.length > 0 then round2 (tot.diff / (entries.length : ℚ)) else 0
    average_halstead_effort :=
      if entries.length > 0 then round2 (tot.eff / (entries.length : ℚ)) else 0
    files := entries
    graph :=
      { nodes := entries.map fun ent => ⟨ent.relative_path, ent.relative_path⟩
        edges := buildEdges relToMod modToRel entries } }

inductive ProjError where
  | pathNotFound
  | notADirectory
  deriving DecidableEq, Repr

/-- The entry point `analyze_project` (app.py:391-580): `FileNotFoundError` when the root
does not exist, `NotADirectoryError` when it is not a directory, otherwise
the complete report. -/
def analyze_project (fs : FS) : Except ProjError ProjectReport :=
  if !fs.pathExists then .error .pathNotFound
  else if !fs.isDir then .error .notADirectory
  else .ok (buildReport fs)

/-! ## Spec-side readings used to compare the code against the claims -/

/-- The report entries whose file analysed without an `error`. -/
def nonErroredFiles (es : List FileEntry) : List FileEntry :=
  es.filter fun e => e.analysis.error.isNone

/-- The non-empty Halstead dicts of a list of report entries. -/
def halsteadOf (es : List FileEntry) : List HalsteadVals :=
  es.filterMap fun e => e.analysis.halstead

/-- The node identifiers of a report's dependency graph. -/
def nodeIds (r : ProjectReport) : List String :=
  r.graph.nodes.map GraphNode.id

/-! ## Concrete inputs used by the counterexamples and witnesses -/

/-- AST of `def f(a,b,c): return 1 if a>10 else (2 if b>5 else 3)`
(spec §8 scenario 1). -/
def c2tree : PyNode :=
  .module [.functionDef "f" ["a", "b", "c"]
    [.returnS [.ifExp
      (.compare (.nameE "a") [.constE (.intC 10) 1])
      (.constE (.intC 1) 1)
      (.ifExp (.compare (.nameE "b") [.constE (.intC 5) 1])
        (.constE (.intC 2) 1) (.constE (.intC 3) 1))]] 1]

/-- Scenario-1 file: one parseable line containing `c2tree`. -/
def c2file : PyFile := ⟨"f.py", .ok ⟨1, .ok c2tree, ⟨0, 0, 0⟩⟩⟩

/-- AST of a function whose `except` handler directly contains an `if`:
`def f():\n  try:\n    pass\n  except:\n    if x:\n      pass`. -/
def c3fun : PyNode :=
  .functionDef "f" []
    [.tryS [.passS] [.exceptHandler [.ifS (.nameE "x") [.passS] []]] [] []] 1

/-- Two-file project: `bad.py` fails to read, `good.py` parses with
Halstead volume 10, difficulty 4, effort 40. -/
def fsC5 : FS :=
  ⟨true, true,
    [⟨"bad.py", ⟨"/p/bad.py", .error "boom"⟩⟩,
     ⟨"good.py", ⟨"/p/good.py", .ok ⟨3, .ok (.module []), ⟨10, 4, 40⟩⟩⟩⟩]⟩

/-- Two-file project where `a.py` contains `import b` and `b.py` exists,
so the resolver produces the edge `a.py → b.py`. -/
def fsC6 : FS :=
  ⟨true, true,
    [⟨"a.py", ⟨"/p/a.py", .ok ⟨1, .ok (.module [.importS ["b"]]), ⟨0, 0, 0⟩⟩⟩⟩,
     ⟨"b.py", ⟨"/p/b.py", .ok ⟨0, .ok (.module []), ⟨0, 0, 0⟩⟩⟩⟩]⟩

/-- One-file project whose only file fails to read. -/
def fsC8 : FS :=
  ⟨true, true, [⟨"bad.py", ⟨"/p/bad.py", .error "boom"⟩⟩]⟩

/-- Two classes, each with a method `m`; the walk visits `A.m` (body
`pass`) before `B.m` (body `if x: pass`). -/
def c9tree : PyNode :=
  .module
    [.classDef "A" [.functionDef "m" [] [.passS] 2] 1,
     .classDef "B" [.functionDef "m" [] [.ifS (.nameE "x") [.passS] []] 5] 4]

/-- The later of the two same-named definitions in `c9tree`. -/
def c9lastDef : PyNode := .functionDef "m" [] [.ifS (.nameE "x") [.passS] []] 5

/-- AST of the single statement `x == True`. -/
def c10tree : PyNode :=
  .module [.exprStmt (.compare (.nameE "x") [.constE (.boolC true) 1])]

/-! ## Dictionary lemmas -/

theorem lookupDict_insert_self {α : Type} (d : List (String × α)) (k : String)
    (v : α) : lookupDict (dictInsert d k v) k = some v := by
  induction d with
  | nil => simp [dictInsert, lookupDict]
  | cons p rest ih =>
    obtain ⟨k', v'⟩ := p
    by_cases h : k' = k
    · simp [dictInsert, h, lookupDict]
    · simp [dictInsert, h, lookupDict, ih]

theorem lookupDict_insert_ne {α : Type} (d : List (String × α)) (k k' : String)
    (v : α) (h : k' ≠ k) :
    lookupDict (dictInsert d k' v) k = lookupDict d k := by
  induction d with
  | nil => simp [dictInsert, lookupDict, h]
  | cons p rest ih =>
    obtain ⟨k'', v''⟩ := p
    by_cases h2 : k'' = k'
    · subst h2
      simp [dictInsert, lookupDict, h]
    · simp [dictInsert, h2, lookupDict, ih]

theorem mem_keys_of_lookup {α : Type} (d : List (String × α)) (k : String)
    (v : α) (h : lookupDict d k = some v) : k ∈ dictKeys d := by
  induction d with
  | nil => simp [lookupDict] at h
  | cons p rest ih =>
    obtain ⟨k', v'⟩ := p
    by_cases h2 : k' = k
    · simp [dictKeys, h2]
    · simp only [lookupDict, h2, if_false] at h
      simp [dictKeys] at ih ⊢
      exact Or.inr (ih h)

theorem mem_values_of_lookup {α : Type} (d : List (String × α)) (k : String)
    (v : α) (h : lookupDict d k = some v) : v ∈ dictValues d := by
  induction d with
  | nil => simp [lookupDict] at h
  | cons p rest ih =>
    obtain ⟨k', v'⟩ := p
    by_cases h2 : k' = k
    · simp only [lookupDict, h2, if_true] at h
      simp [dictValues, ← Option.some_inj.mp h]
    · simp only [lookupDict, h2, if_false] at h
      simp [dictValues] at ih ⊢
      exact Or.inr (ih h)

theorem mem_keys_insert {α : Type} (d : List (String × α)) (k k' : String)
    (v : α) (h : k ∈ dictKeys (dictInsert d k' v)) :
    k ∈ dictKeys d ∨ k = k' := by
  induction d with
  | nil =>
    simp only [dictInsert, dictKeys, List.map_cons, List.map_nil,
      List.mem_cons, List.not_mem_nil, or_false] at h
    exact Or.inr h
  | cons p rest ih =>
    obtain ⟨k'', v''⟩ := p
    by_cases h2 : k'' = k'
    · simp only [dictInsert, h2, if_true, dictKeys, List.map_cons,
        List.mem_cons] at h ⊢
      exact Or.inl h
    · simp only [dictInsert, h2, if_false, dictKeys, List.map_cons,
        List.mem_cons] at h ⊢
      rcases h with h | h
      · exact Or.inl (Or.inl h)
      · rcases ih h with h3 | h3
        · exact Or.inl (Or.inr h3)
        · exact Or.inr h3

theorem mem_values_insert {α : Type} (d : List (String × α)) (k' : String)
    (v v' : α) (h : v ∈ dictValues (dictInsert d k' v')) :
    v ∈ dictValues d ∨ v = v' := by
  induction d with
  | nil =>
    simp only [dictInsert, dictValues, List.map_cons, List.map_nil,
      List.mem_cons, List.not_mem_nil, or_false] at h
    exact Or.inr h
  | cons p rest ih =>
    obtain ⟨k'', v''⟩ := p
    by_cases h2 : k'' = k'
    · simp only [dictInsert, h2, if_true, dictValues, List.map_cons,
        List.mem_cons] at h ⊢
      rcases h with h | h
      · exact Or.inr h
      · exact Or.inl (Or.inr h)
    · simp only [dictInsert, h2, if_false, dictValues, List.map_cons,
        List.mem_cons] at h ⊢
      rcases h with h | h
      · exact Or.inl (Or.inl h)
      · rcases ih h with h3 | h3
        · exact Or.inl (Or.inr h3)
        · exact Or.inr h3

/-! ## The `function_nodes` dict records the last same-named definition -/

theorem lookup_fold_fnStep_last (l : List PyNode) (m0 : List (String × PyNode))
    (k : String) (pre : List PyNode) (d : PyNode)
    (h : l.filter (fun n => (defInfo n).map Prod.fst = some k) = pre ++ [d]) :
    lookupDict (l.foldl fnStep m0) k = some d := by
  induction l using List.reverseRecOn generalizing pre with
  | nil => simp at h
  | append_singleton l n ih =>
    rw [List.foldl_append, List.foldl_cons, List.foldl_nil]
    rw [List.filter_append, List.filter_cons, List.filter_nil] at h
    rcases hd : defInfo n with _ | p
    · simp only [hd, Option.map_none', reduceCtorEq, decide_False,
        Bool.false_eq_true, if_false, List.append_nil] at h
      simp only [fnStep, hd]
      exact ih pre h
    · by_cases hk : p.1 = k
      · simp only [hd, Option.map_some', hk, decide_True, if_true] at h
        have h2 := (List.append_inj' h rfl).2
        have hd2 : d = n := by
          have := List.cons.injEq n [] d [] ▸ h2
          simpa using h2.symm
        subst hd2
        simp only [fnStep, hd, hk]
        exact lookupDict_insert_self _ _ _
      · have hne : (Option.map Prod.fst (some p) = some k) = False := by
          simp [hk]
        simp only [hd, hne, decide_False, Bool.false_eq_true, if_false,
          List.append_nil] at h
        simp only [fnStep, hd]
        rw [lookupDict_insert_ne _ _ _ _ hk]
        exact ih pre h

/-! ## Soundness of the import resolver targets (for the graph closure) -/

theorem keys_relativeToModule_sub (fs : FS) :
    ∀ x ∈ dictKeys (relativeToModule fs),
      x ∈ fs.pyFiles.map FSFile.relative_path := by
  have main : ∀ (l : List FSFile) (d0 : List (String × String)),
      ∀ x ∈ dictKeys (l.foldl
        (fun d f => dictInsert d f.relative_path (moduleName f.relative_path))
        d0),
        x ∈ dictKeys d0 ∨ x ∈ l.map FSFile.relative_path := by
    intro l
    induction l with
    | nil => intro d0 x hx; exact Or.inl hx
    | cons f rest ih =>
      intro d0 x hx
      rw [List.foldl_cons] at hx
      rcases ih _ x hx with h | h
      · rcases mem_keys_insert _ _ _ _ h with h2 | h2
        · exact Or.inl h2
        · exact Or.inr (by simp [h2])
      · exact Or.inr (by simp [h])
  intro x hx
  rcases main fs.pyFiles [] x hx with h | h
  · simp [dictKeys] at h
  · exact h

theorem values_moduleToRelative_sub (fs : FS) :
    ∀ y ∈ dictValues (moduleToRelative fs),
      y ∈ fs.pyFiles.map FSFile.relative_path := by
  have main : ∀ (l : List (String × String)) (d0 : List (String × String)),
      ∀ y ∈ dictValues (l.foldl (fun d p => dictInsert d p.2 p.1) d0),
        y ∈ dictValues d0 ∨ y ∈ l.map Prod.fst := by
    intro l
    induction l with
    | nil => intro d0 y hy; exact Or.inl hy
    | cons p rest ih =>
      intro d0 y hy
      rw [List.foldl_cons] at hy
      rcases ih _ y hy with h | h
      · rcases mem_values_insert _ _ _ _ h with h2 | h2
        · exact Or.inl h2
        · exact Or.inr (by simp [h2])
      · exact Or.inr (by simp [h])
  intro y hy
  rcases main (relativeToModule fs) [] y hy with h | h
  · simp [dictValues] at h
  · exact keys_relativeToModule_sub fs y h

theorem lookup_moduleToRelative_mem (fs : FS) (k rel : String)
    (h : lookupDict (moduleToRelative fs) k = some rel) :
    rel ∈ fs.pyFiles.map FSFile.relative_path :=
  values_moduleToRelative_sub fs rel (mem_values_of_lookup _ _ _ h)

theorem findApproxMatch_mem (fs : FS) (imported rel : String)
    (h : findApproxMatch (moduleToRelative fs) imported = some rel) :
    rel ∈ fs.pyFiles.map FSFile.relative_path := by
  unfold findApproxMatch at h
  rcases hf : (moduleToRelative fs).find?
      (fun p => pyStartsWith imported p.1 || pyStartsWith p.1 imported)
    with _ | p
  · rw [hf] at h; simp at h
  · rw [hf] at h
    simp only [Option.map_some', Option.some_inj] at h
    have hp := List.mem_of_find?_eq_some hf
    apply values_moduleToRelative_sub fs
    rw [← h]
    exact List.mem_map_of_mem Prod.snd hp

theorem resolveTarget_mem (fs : FS) (srcDir imported t : String)
    (h : resolveTarget (relativeToModule fs) (moduleToRelative fs)
      srcDir imported = some t) :
    t ∈ fs.pyFiles.map FSFile.relative_path := by
  unfold resolveTarget at h
  dsimp only at h
  split at h
  · split at h
    · split at h
      · rename_i hsome
        simp only [Option.some_inj] at h
        rcases Option.isSome_iff_exists.mp hsome with ⟨v, hv⟩
        have hk := mem_keys_of_lookup _ _ _ hv
        rw [← h]
        exact keys_relativeToModule_sub fs _ hk
      · simp at h
    · split at h
      · rename_i rel hl
        simp only [Option.some_inj] at h
        exact h ▸ lookup_moduleToRelative_mem fs _ _ hl
      · exact lookup_moduleToRelative_mem fs _ _ h
  · split at h
    · rename_i rel hl
      simp only [Option.some_inj] at h
      exact h ▸ lookup_moduleToRelative_mem fs _ _ hl
    · exact findApproxMatch_mem fs _ _ h

/-! ## The graph invariants are preserved by every edge insertion -/

/-- The invariant of the edge list under construction: no duplicates, and
every edge runs between two known file paths without a self-loop. -/
def goodEdges (paths : List String) (edges : List GraphEdge) : Prop :=
  edges.Nodup ∧
    ∀ e ∈ edges, e.source ∈ paths ∧ e.target ∈ paths ∧ e.source ≠ e.target

theorem addImportEdge_good (fs : FS) (srcFile : String)
    (edges : List GraphEdge) (imported : String)
    (hsrc : srcFile ∈ fs.pyFiles.map FSFile.relative_path)
    (hg : goodEdges (fs.pyFiles.map FSFile.relative_path) edges) :
    goodEdges (fs.pyFiles.map FSFile.relative_path)
      (addImportEdge (relativeToModule fs) (moduleToRelative fs)
        srcFile edges imported) := by
  unfold addImportEdge
  split
  · rename_i target hres
    split
    · rename_i hne
      dsimp only
      split
      · exact hg
      · rename_i hnotmem
        constructor
        · rw [List.nodup_append]
          refine ⟨hg.1, List.nodup_singleton _, ?_⟩
          intro a ha hb
          simp only [List.mem_singleton] at hb
          exact hnotmem (hb ▸ ha)
        · intro e he
          rcases List.mem_append.mp he with he | he
          · exact hg.2 e he
          · simp only [List.mem_singleton] at he
            subst he
            exact ⟨hsrc, resolveTarget_mem fs _ _ _ hres, Ne.symm hne⟩
    · exact hg
  · exact hg

theorem foldl_addImportEdge_good (fs : FS) (srcFile : String)
    (imps : List String) (edges : List GraphEdge)
    (hsrc : srcFile ∈ fs.pyFiles.map FSFile.relative_path)
    (hg : goodEdges (fs.pyFiles.map FSFile.relative_path) edges) :
    goodEdges (fs.pyFiles.map FSFile.relative_path)
      (imps.foldl
        (addImportEdge (relativeToModule fs) (moduleToRelative fs) srcFile)
        edges) := by
  induction imps generalizing edges with
  | nil => exact hg
  | cons imp rest ih =>
    rw [List.foldl_cons]
    exact ih _ (addImportEdge_good fs srcFile edges imp hsrc hg)

theorem buildEdges_good (fs : FS) :
    goodEdges (fs.pyFiles.map FSFile.relative_path)
      (buildEdges (relativeToModule fs) (moduleToRelative fs)
        (fileEntries fs)) := by
  unfold buildEdges
  have hpaths : ∀ ent ∈ fileEntries fs,
      ent.relative_path ∈ fs.pyFiles.map FSFile.relative_path := by
    intro ent hent
    rcases List.mem_map.mp hent with ⟨f, hf, rfl⟩
    exact List.mem_map_of_mem FSFile.relative_path hf
  have main : ∀ (es : List FileEntry) (edges : List GraphEdge),
      (∀ ent ∈ es,
        ent.relative_path ∈ fs.pyFiles.map FSFile.relative_path) →
      goodEdges (fs.pyFiles.map FSFile.relative_path) edges →
      goodEdges (fs.pyFiles.map FSFile.relative_path)
        (es.foldl
          (fun edges ent =>
            if ent.analysis.error.isSome then edges
            else
              ent.analysis.imports.foldl
                (addImportEdge (relativeToModule fs) (moduleToRelative fs)
                  ent.relative_path)
                edges)
          edges) := by
    intro es
    induction es with
    | nil => intro edges _ hg; exact hg
    | cons ent rest ih =>
      intro edges hp hg
      rw [List.foldl_cons]
      refine ih _ (fun x hx => hp x (List.mem_cons_of_mem _ hx)) ?_
      split
      · exact hg
      · exact foldl_addImportEdge_good fs _ _ _
          (hp ent (List.mem_cons_self ent rest)) hg
  exact main _ [] hpaths ⟨List.nodup_nil, by simp⟩

/-! ## The totals fold equals the spec-side filtered sums -/

theorem accTotals_halstead (es : List FileEntry) (init : Totals) :
    (es.foldl accTotals init).vol =
      init.vol +
        ((halsteadOf (nonErroredFiles es)).map HalsteadVals.volume).sum ∧
    (es.foldl accTotals init).diff =
      init.diff +
        ((halsteadOf (nonErroredFiles es)).map HalsteadVals.difficulty).sum ∧
    (es.foldl accTotals init).eff =
      init.eff +
        ((halsteadOf (nonErroredFiles es)).map HalsteadVals.effort).sum := by
  induction es generalizing init with
  | nil => simp [nonErroredFiles, halsteadOf]
  | cons ent rest ih =>
    rw [List.foldl_cons]
    rcases herr : ent.analysis.error with _ | msg
    · have hkeep : nonErroredFiles (ent :: rest) =
          ent :: nonErroredFiles rest := by
        simp [nonErroredFiles, List.filter_cons, herr]
      rcases hh : ent.analysis.halstead with _ | hv
      · have hstep : accTotals init ent =
            { init with
              loc := init.loc + ent.analysis.lines_of_code
              funcs := init.funcs + ent.analysis.functions.length
              smells := init.smells + ent.analysis.code_smells.length
              cyc := init.cyc + (ent.analysis.functions.map
                FunctionRec.cyclomatic_complexity).sum
              cog := init.cog + (ent.analysis.functions.map
                FunctionRec.cognitive_complexity).sum } := by
          simp [accTotals, herr, hh]
        rw [hstep]
        refine ⟨?_, ?_, ?_⟩
        · rw [(ih _).1]
          simp [hkeep, halsteadOf, List.filterMap_cons, hh]
        · rw [(ih _).2.1]
          simp [hkeep, halsteadOf, List.filterMap_cons, hh]
        · rw [(ih _).2.2]
          simp [hkeep, halsteadOf, List.filterMap_cons, hh]
      · have hstep : accTotals init ent =
            { init with
              loc := init.loc + ent.analysis.lines_of_code
              funcs := init.funcs + ent.analysis.functions.length
              smells := init.smells + ent.analysis.code_smells.length
              cyc := init.cyc + (ent.analysis.functions.map
                FunctionRec.cyclomatic_complexity).sum
              cog := init.cog + (ent.analysis.functions.map
                FunctionRec.cognitive_complexity).sum
              vol := init.vol + hv.volume
              diff := init.diff + hv.difficulty
              eff := init.eff + hv.effort } := by
          simp [accTotals, herr, hh]
        rw [hstep]
        refine ⟨?_, ?_, ?_⟩
        · rw [(ih _).1]
          simp only [hkeep, halsteadOf, List.filterMap_cons, hh,
            List.map_cons, List.sum_cons]
          ring
        · rw [(ih _).2.1]
          simp only [hkeep, halsteadOf, List.filterMap_cons, hh,
            List.map_cons, List.sum_cons]
          ring
        · rw [(ih _).2.2]
          simp only [hkeep, halsteadOf, List.filterMap_cons, hh,
            List.map_cons, List.sum_cons]
          ring
    · have hdrop : nonErroredFiles (ent :: rest) = nonErroredFiles rest := by
        simp [nonErroredFiles, List.filter_cons, herr]
      have hstep : accTotals init ent = init := by
        simp [accTotals, herr]
      rw [hstep, hdrop]
      exact ih init

/-! ## The claims -/

/-- C1. The claim says `from .sibling import x` yields `".sibling"` and
`from ..pkg.mod import x` yields `"..pkg.mod"`. The extractor tests
`if node.module:` first, so any relative import carrying a module suffix
loses its level dots: it emits `"sibling"` and `"pkg.mod"`. Only the
module-less `from . import x` keeps its dots. This theorem evaluates the
embedded extractor at those inputs. -/
theorem c1_import_ref_at_failing_input :
    visitImports (.module [.importFrom (some "sibling") 1]) = ["sibling"] ∧
    visitImports (.module [.importFrom (some "pkg.mod") 2]) = ["pkg.mod"] ∧
    visitImports (.module [.importFrom none 1]) = ["."] ∧
    ("sibling" : String) ≠ ".sibling" := by
  refine ⟨by decide, by decide, by decide, by decide⟩

/-- C2 (counterexample). For
`def f(a,b,c): return 1 if a>10 else (2 if b>5 else 3)` the claim says the
lone function has cognitive complexity 2; the code's cognitive walk never
matches `ast.IfExp`, so it reports 0. -/
theorem c2_cognitive_counterexample :
    (analyze_python_file c2file).functions.map
      FunctionRec.cognitive_complexity = [0] ∧ (0 : ℕ) ≠ 2 := by
  refine ⟨by decide, by decide⟩

/-- C2 (amended). The per-file analysis of scenario 1 reports exactly one
function `f` with cyclomatic complexity 3 and cognitive complexity 0, and
exactly two MagicNumber smells, for the values 10 and 5. -/
theorem c2_per_file_report :
    (analyze_python_file c2file).functions = [⟨"f", 3, 0, 1⟩] ∧
    (analyze_python_file c2file).code_smells =
      [⟨.magicNumber, "Magic number 10 found in comparison", 1⟩,
       ⟨.magicNumber, "Magic number 5 found in comparison", 1⟩] := by
  refine ⟨by decide, by decide⟩

/-- C3 (counterexample). For a function holding `try: pass / except: if x:
pass`, the claim (handler adds nesting) predicts cognitive complexity
1 + 2 + 3 = 6; the code computes 5, because `ExceptHandler` is absent from
the nesting-increase tuple (app.py:153). -/
theorem c3_handler_nesting_counterexample :
    calculate_cognitive_complexity_from_ast c3fun = 5 ∧ (5 : ℕ) ≠ 6 := by
  refine ⟨by rfl, by decide⟩

/-- C3 (amended). An `except` handler charges `1 + n` itself but does not
increase the nesting of its children: below a `try` at nesting 0 the
handler is charged at nesting 1, and a construct directly inside the
handler body is also visited at nesting 1 (contributing `1 + 1`, not
`1 + 2`, when it is an `if`). -/
theorem c3_handler_body_nesting (t : PyNode) (b o : List PyNode) :
    cogVisit (.tryS [.passS] [.exceptHandler [.ifS t b o]] [] []) 0 =
      (1 + 0) + ((1 + 1) + ((1 + 1) +
        (cogVisit t 2 + (cogList b 2 + cogList o 2)))) := by
  simp [cogVisit, cogList]

/-- C4 (counterexample). The distinct files `a.py` and `a/__init__.py`
derive the same module name, refuting the claimed distinctness. -/
theorem c4_module_name_counterexample :
    moduleName "a.py" = moduleName "a/__init__.py" ∧
    ("a.py" : String) ≠ "a/__init__.py" := by
  refine ⟨by decide, by decide⟩

/-- C4 (amended). The derivation behaves as specified (separators to dots,
extension stripped, trailing package-init elided) but is not injective:
`a.py` and `a/__init__.py` both map to `a`. -/
theorem c4_module_name_derivation :
    moduleName "a.py" = "a" ∧ moduleName "a/__init__.py" = "a" ∧
    moduleName "pkg/__init__.py" = "pkg" ∧
    moduleName "pkg/mod.py" = "pkg.mod" := by
  refine ⟨by decide, by decide, by decide, by decide⟩

/-- C5 (counterexample). In `fsC5` one of the two files errors; the claim
(divide by the non-errored count, here 1) predicts average volume 10, but
the code divides by `files_analyzed` (here 2) and reports 5. -/
theorem c5_average_counterexample :
    (buildReport fsC5).average_halstead_volume = 5 ∧
    (if 0 < (nonErroredFiles (buildReport fsC5).files).length then
      round2 ((buildReport fsC5).total_halstead_volume /
        ((nonErroredFiles (buildReport fsC5).files).length : ℚ))
    else 0) = 10 ∧
    (5 : ℚ) ≠ 10 := by
  have h1 : ⌊((0 : ℚ) + 10) / 2 * 100 + 1 / 2⌋ = 500 := by
    rw [Int.floor_eq_iff]
    norm_num
  have h2 : ⌊((0 : ℚ) + 10) / 1 * 100 + 1 / 2⌋ = 1000 := by
    rw [Int.floor_eq_iff]
    norm_num
  refine ⟨?_, ?_, by norm_num⟩
  · simp [buildReport, fileEntries, fsC5, analyze_python_file, accTotals,
      round2]
    norm_num [h1]
  · simp [buildReport, fileEntries, fsC5, analyze_python_file, accTotals,
      nonErroredFiles, round2]
    norm_num [h2]

/-- C5 (amended). Each Halstead total accumulates exactly the values of
the non-errored files (errored files contribute nothing to the numerator),
and each average divides that total by `files_analyzed` — the count of ALL
analysed files, errored ones included — rounded to two decimals, with 0
when there are no files at all. -/
theorem c5_halstead_averages (fs : FS) :
    (buildReport fs).total_halstead_volume =
      ((halsteadOf (nonErroredFiles (buildReport fs).files)).map
        HalsteadVals.volume).sum ∧
    (buildReport fs).total_halstead_difficulty =
      ((halsteadOf (nonErroredFiles (buildReport fs).files)).map
        HalsteadVals.difficulty).sum ∧
    (buildReport fs).total_halstead_effort =
      ((halsteadOf (nonErroredFiles (buildReport fs).files)).map
        HalsteadVals.effort).sum ∧
    (buildReport fs).files_analyzed = (buildReport fs).files.length ∧
    (buildReport fs).average_halstead_volume =
      (if 0 < (buildReport fs).files_analyzed then
        round2 ((buildReport fs).total_halstead_volume /
          ((buildReport fs).files_analyzed : ℚ))
      else 0) ∧
    (buildReport fs).average_halstead_difficulty =
      (if 0 < (buildReport fs).files_analyzed then
        round2 ((buildReport fs).total_halstead_difficulty /
          ((buildReport fs).files_analyzed : ℚ))
      else 0) ∧
    (buildReport fs).average_halstead_effort =
      (if 0 < (buildReport fs).files_analyzed then
        round2 ((buildReport fs).total_halstead_effort /
          ((buildReport fs).files_analyzed : ℚ))
      else 0) := by
  obtain ⟨h1, h2, h3⟩ :=
    accTotals_halstead (fileEntries fs) ⟨0, 0, 0, 0, 0, 0, 0, 0⟩
  refine ⟨?_, ?_, ?_, rfl, rfl, rfl, rfl⟩
  · show (List.foldl accTotals ⟨0, 0, 0, 0, 0, 0, 0, 0⟩
      (fileEntries fs)).vol = _
    rw [h1]
    simp
    rfl
  · show (List.foldl accTotals ⟨0, 0, 0, 0, 0, 0, 0, 0⟩
      (fileEntries fs)).diff = _
    rw [h2]
    simp
    rfl
  · show (List.foldl accTotals ⟨0, 0, 0, 0, 0, 0, 0, 0⟩
      (fileEntries fs)).eff = _
    rw [h3]
    simp
    rfl

/-- C7. A file whose bytes read and decode but whose parse fails yields,
without raising, a report with exactly one SyntaxError smell, an empty
function list, no `error` field, and the LOC value already computed. -/
theorem c7_syntax_error_report (p : String) (loc : Nat) (e : SynErr)
    (hv : HalsteadVals) :
    analyze_python_file ⟨p, .ok ⟨loc, .error e, hv⟩⟩ =
      { file_path := p
        lines_of_code := loc
        functions := []
        code_smells :=
          [⟨.syntaxErrorSmell, "Invalid Python syntax: " ++ e.msg, e.lineno⟩]
        halstead := none
        imports := []
        error := none } := rfl

/-- C6. In every produced report, each edge's source and target appear
among the graph's node identifiers, no edge is a self-loop, and the edge
list has no duplicates. -/
theorem c6_graph_invariants (fs : FS) :
    (buildReport fs).graph.edges.Nodup ∧
    ∀ e ∈ (buildReport fs).graph.edges,
      e.source ∈ nodeIds (buildReport fs) ∧
      e.target ∈ nodeIds (buildReport fs) ∧
      e.source ≠ e.target := by
  have hg := buildEdges_good fs
  have hnodes : nodeIds (buildReport fs) =
      fs.pyFiles.map FSFile.relative_path := by
    simp [nodeIds, buildReport, fileEntries, List.map_map]
  have hedges : (buildReport fs).graph.edges =
      buildEdges (relativeToModule fs) (moduleToRelative fs)
        (fileEntries fs) := rfl
  rw [hedges, hnodes]
  exact ⟨hg.1, hg.2⟩

/-- C6 witness at `fsC6`, whose report has the single edge
`a.py → b.py`. -/
theorem c6_graph_invariants_witness :
    (buildReport fsC6).graph.edges.Nodup ∧
    ((⟨"a.py", "b.py"⟩ : GraphEdge) ∈ (buildReport fsC6).graph.edges ∧
      ("a.py" : String) ∈ nodeIds (buildReport fsC6) ∧
      ("b.py" : String) ∈ nodeIds (buildReport fsC6) ∧
      ("a.py" : String) ≠ "b.py") := by
  refine ⟨(c6_graph_invariants fsC6).1, ?_⟩
  have hmem : (⟨"a.py", "b.py"⟩ : GraphEdge) ∈
      (buildReport fsC6).graph.edges := by decide
  exact ⟨hmem, (c6_graph_invariants fsC6).2 _ hmem⟩

/-- C8. `analyze_project` errors exactly when the root is missing
(`pathNotFound`) or not a directory (`notADirectory`); on any existing
directory it returns the complete report, in which every discovered file
appears and every read failure is recorded in that file's `error` field. -/
theorem c8_engine_errors (fs : FS) :
    ((∃ r, analyze_project fs = .ok r) ↔
      fs.pathExists = true ∧ fs.isDir = true) ∧
    (fs.pathExists = false → analyze_project fs = .error .pathNotFound) ∧
    (fs.pathExists = true → fs.isDir = false →
      analyze_project fs = .error .notADirectory) ∧
    (∀ r, analyze_project fs = .ok r → ∀ f ∈ fs.pyFiles,
      (⟨analyze_python_file f.pyfile, f.relative_path⟩ : FileEntry) ∈
        r.files ∧
      ∀ msg, f.pyfile.read = .error msg →
        (analyze_python_file f.pyfile).error =
          some ("Failed to read file: " ++ msg)) := by
  rcases hpe : fs.pathExists with _ | _
  · have he : analyze_project fs = .error .pathNotFound := by
      unfold analyze_project
      rw [hpe]
      rfl
    refine ⟨?_, fun _ => he, fun h _ => Bool.noConfusion h, ?_⟩
    · constructor
      · rintro ⟨r, hr⟩
        rw [he] at hr
        exact Except.noConfusion hr
      · rintro ⟨h, _⟩
        exact Bool.noConfusion h
    · intro r hr
      rw [he] at hr
      exact Except.noConfusion hr
  · rcases hdir : fs.isDir with _ | _
    · have he : analyze_project fs = .error .notADirectory := by
        unfold analyze_project
        rw [hpe, hdir]
        rfl
      refine ⟨?_, fun h => Bool.noConfusion h, fun _ _ => he, ?_⟩
      · constructor
        · rintro ⟨r, hr⟩
          rw [he] at hr
          exact Except.noConfusion hr
        · rintro ⟨_, h⟩
          exact Bool.noConfusion h
      · intro r hr
        rw [he] at hr
        exact Except.noConfusion hr
    · have he : analyze_project fs = .ok (buildReport fs) := by
        unfold analyze_project
        rw [hpe, hdir]
        rfl
      refine ⟨⟨fun _ => ⟨rfl, rfl⟩, fun _ => ⟨buildReport fs, he⟩⟩,
        fun h => Bool.noConfusion h,
        fun _ h => Bool.noConfusion h, ?_⟩
      intro r hr f hf
      rw [he] at hr
      have hrr : r = buildReport fs := by
        injection hr with h2
        exact h2.symm
      subst hrr
      constructor
      · show _ ∈ fileEntries fs
        exact List.mem_map_of_mem
          (fun f => (⟨analyze_python_file f.pyfile, f.relative_path⟩ :
            FileEntry)) hf
      · intro msg hmsg
        simp [analyze_python_file, hmsg]

/-- C8 witness at `fsC8` (an existing directory whose only file fails to
read): analysis succeeds and the file appears with its `error` set. -/
theorem c8_engine_errors_witness :
    (∃ r, analyze_project fsC8 = .ok r) ∧
    ((⟨analyze_python_file ⟨"/p/bad.py", .error "boom"⟩, "bad.py"⟩ :
        FileEntry) ∈ (buildReport fsC8).files) ∧
    (analyze_python_file ⟨"/p/bad.py", .error "boom"⟩).error =
      some "Failed to read file: boom" := by
  have h := c8_engine_errors fsC8
  have hok : analyze_project fsC8 = .ok (buildReport fsC8) := rfl
  have h4 := h.2.2.2 (buildReport fsC8) hok
    ⟨"bad.py", ⟨"/p/bad.py", .error "boom"⟩⟩ (by simp [fsC8])
  exact ⟨h.1.mpr ⟨rfl, rfl⟩, h4.1, h4.2 "boom" rfl⟩

/-- C9. Cognitive complexity is attached by bare function name: whenever
the walked definitions bearing a report's name end with definition `d`
(and there are at least two of them), that report's cognitive complexity
is the one computed from `d`, the definition the AST walk visits last. -/
theorem c9_cognitive_by_last_name (t : PyNode) (fr : FunctionRec)
    (hfr : fr ∈ analyzeFunctions t) (pre : List PyNode) (d : PyNode)
    (hlast : (walk t).filter
      (fun n => (defInfo n).map Prod.fst = some fr.name) = pre ++ [d])
    (_htwo : 2 ≤ (pre ++ [d]).length) :
    fr.cognitive_complexity = calculate_cognitive_complexity_from_ast d := by
  rcases List.mem_map.mp hfr with ⟨b, hb, rfl⟩
  have hlk := lookup_fold_fnStep_last (walk t) [] b.name pre d hlast
  show (match lookupDict (functionNodes t) b.name with
    | some nd => calculate_cognitive_complexity_from_ast nd
    | none => 0) = _
  rw [show functionNodes t = (walk t).foldl fnStep [] from rfl, hlk]

/-- C9 witness at `c9tree`: classes `A` and `B` both define `m`; the
report for `A.m` carries the cognitive complexity of `B.m`, the
same-named definition walked last. -/
theorem c9_cognitive_by_last_name_witness :
    ((⟨"m", 1, 1, 2⟩ : FunctionRec) ∈ analyzeFunctions c9tree) ∧
    (⟨"m", 1, 1, 2⟩ : FunctionRec).cognitive_complexity =
      calculate_cognitive_complexity_from_ast c9lastDef := by
  refine ⟨by decide, ?_⟩
  exact c9_cognitive_by_last_name c9tree ⟨"m", 1, 1, 2⟩ (by decide)
    [.functionDef "m" [] [.passS] 2] c9lastDef (by rfl) (by decide)

/-- C10. Every comparison whose right-hand comparator is the boolean
literal `True` or `False` produces a MagicNumber smell, because a boolean
constant passes the `isinstance(…, int)` test. -/
theorem c10_bool_comparator_magic (t lft : PyNode) (cs : List PyNode)
    (b : Bool) (ln : Nat)
    (hmem : PyNode.compare lft cs ∈ walk t)
    (hc : PyNode.constE (.boolC b) ln ∈ cs) :
    (⟨.magicNumber,
      "Magic number " ++ pyConstStr (.boolC b) ++ " found in comparison",
      ln⟩ : Smell) ∈ detectSmells t := by
  unfold detectSmells
  refine List.mem_flatMap.mpr ⟨PyNode.compare lft cs, hmem, ?_⟩
  show _ ∈ cs.filterMap _
  refine List.mem_filterMap.mpr ⟨PyNode.constE (.boolC b) ln, hc, ?_⟩
  simp [pyIsInstInt]

/-- C10 witness: the file `x == True` yields the smell with message
`Magic number True found in comparison`. -/
theorem c10_bool_comparator_magic_witness :
    (⟨.magicNumber, "Magic number True found in comparison", 1⟩ : Smell) ∈
      detectSmells c10tree := by
  have hw : walk c10tree =
      [c10tree,
       .exprStmt (.compare (.nameE "x") [.constE (.boolC true) 1]),
       .compare (.nameE "x") [.constE (.boolC true) 1],
       .nameE "x", .constE (.boolC true) 1] := rfl
  exact c10_bool_comparator_magic c10tree (.nameE "x")
    [.constE (.boolC true) 1] true 1
    (by rw [hw]; simp) (by simp)

end ProjectAnalyzer
